import Mathlib

/-!
Shallow embedding of `src/get-cyberark-ssh-key.py` (class `CyberarkSSHKeyFetcher`
and the surrounding one-shot flow).

Modelling conventions:
- Python strings are Lean `String`s; `str.lower()` is modelled for the ASCII
  range (`pyLower`); the `strip` of the wrapping quote characters is
  `pyStrip` (removes every leading and trailing occurrence, like Python).
- The filesystem is an association list from path to `File` (mode + content).
  `open(path, "w")` creates a missing file with mode `0o666 & ~umask`
  (the POSIX default for `open`), truncates an existing one keeping its mode;
  `os.chmod` rewrites the mode; `os.remove`/`os.unlink` delete the entry.
- Side effects are recorded as an `Event` trace in program order; folding
  `applyEvent` over the trace yields the filesystem at each observable instant
  (`fsStates`).  The `ls -l` logging call touches no state and is omitted.
- `requests.post` responses are passed in as data (status plus, for the fetch
  call, the result `json.loads` would produce: `none` models a raised
  `JSONDecodeError`; absent dictionary keys model raised `KeyError`s).
- `subprocess.run(["ssh-add", filename])` is an oracle
  `String → AgentResult`: `.ret c` is a clean run with exit code `c`,
  `.invocationError` models the invocation itself raising (e.g. `ssh-add`
  not found), which in Python propagates as an uncaught exception.
- `exit(1)` terminates the run; an uncaught exception is kept distinct
  (`Outcome.exc` / `Termination.uncaught`).
-/

namespace Cyberark

/-- Python `s.lower()` restricted to ASCII letters. -/
def pyLower (s : String) : String := ⟨s.data.map Char.toLower⟩

/-- Python `s.strip(c)` for a single character: drop every leading and
trailing occurrence of `c`. -/
def pyStrip (c : Char) (s : String) : String :=
  ⟨((s.data.dropWhile (fun a => a = c)).reverse.dropWhile (fun a => a = c)).reverse⟩

/-- A regular file: permission bits and textual content. -/
structure File where
  mode : Nat
  content : String
deriving DecidableEq

/-- The filesystem: an association list from absolute path to file. -/
abbrev Fs := List (String × File)

def fsGet : Fs → String → Option File
  | [], _ => none
  | (q, f) :: rest, p => if q = p then some f else fsGet rest p

def fsSet : Fs → String → File → Fs
  | [], p, f => [(p, f)]
  | (q, g) :: rest, p, f =>
    if q = p then (p, f) :: rest else (q, g) :: fsSet rest p f

def fsRemove : Fs → String → Fs
  | [], _ => []
  | (q, g) :: rest, p =>
    if q = p then fsRemove rest p else (q, g) :: fsRemove rest p

/-- Mode of a file freshly created by `open(_, "w")`: `0o666 & ~umask`. -/
def defaultFileMode (umask : Nat) : Nat := 0o666 - Nat.land 0o666 umask

/-- Model of `open(path, "w")`: create (with the umask-derived default
mode) or truncate (keeping the existing mode). -/
def fsOpenW (umask : Nat) (fs : Fs) (p : String) : Fs :=
  match fsGet fs p with
  | some f => fsSet fs p ⟨f.mode, ""⟩
  | none => fsSet fs p ⟨defaultFileMode umask, ""⟩

/-- One observable side effect of the script, in program order. -/
inductive Event where
  | purge (path : String)
  | openW (path : String)
  | writeContent (path : String) (content : String)
  | chmod (path : String) (mode : Nat)
  | sshAdd (path : String) (code : Nat)
  | unlink (path : String)
  | warn (path : String)
deriving DecidableEq

def Event.isPurgeEv : Event → Bool
  | .purge _ => true
  | _ => false

def Event.isOpenWEv : Event → Bool
  | .openW _ => true
  | _ => false

def applyEvent (umask : Nat) (fs : Fs) : Event → Fs
  | .purge p => fsRemove fs p
  | .openW p => fsOpenW umask fs p
  | .writeContent p c =>
    match fsGet fs p with
    | some f => fsSet fs p ⟨f.mode, c⟩
    | none => fs
  | .chmod p m =>
    match fsGet fs p with
    | some f => fsSet fs p ⟨m, f.content⟩
    | none => fs
  | .sshAdd _ _ => fs
  | .unlink p => fsRemove fs p
  | .warn _ => fs

def applyEvents (umask : Nat) (fs0 : Fs) (evs : List Event) : Fs :=
  evs.foldl (applyEvent umask) fs0

/-- Every filesystem state observable along an event trace (initial state
included). -/
def fsStates (umask : Nat) : Fs → List Event → List Fs
  | fs, [] => [fs]
  | fs, e :: rest => fs :: fsStates umask (applyEvent umask fs e) rest

/-! ### PAM client: `auth` (lines 29-44) -/

/-- The HTTP response the authentication `requests.post` returned. -/
structure AuthResp where
  status : Nat
  body : String
deriving DecidableEq

/-- Embeds `auth` (lines 39-44): on HTTP 200 store the body with its
surrounding quote characters stripped as the session token; otherwise log
status and body and `exit(1)` (modelled as the error value carrying both). -/
def auth (resp : AuthResp) : Except (Nat × String) String :=
  if resp.status = 200 then .ok (pyStrip '"' resp.body)
  else .error (resp.status, resp.body)

/-! ### Path resolution: `get_ssh_keyfile_path` (lines 46-54) -/

/-- Process environment: the two variables the script reads. -/
structure Env where
  home : Option String
  userprofile : Option String
deriving DecidableEq

/-- Python `a or b` on `os.getenv` results: first operand unless it is
falsy (`None` or the empty string). -/
def pyOr (a b : Option String) : Option String :=
  match a with
  | some s => if s.data = [] then b else some s
  | none => b

/-- POSIX `os.path.join` on two components: an absolute second component
replaces the first; otherwise a `/` separator is inserted unless the first
component is empty or already ends in `/`. -/
def ospJoin (a b : String) : String :=
  if b.data.head? = some '/' then b
  else if a.data = [] ∨ a.data.getLast? = some '/' then a ++ b
  else a ++ "/" ++ b

/-- Embeds `get_ssh_keyfile_path` (lines 46-54): `HOME or USERPROFILE`, `exit(1)`
(modelled as `none`) when the result is `None`, else join with `.ssh` and
the key name. -/
def get_ssh_keyfile_path (env : Env) (keyname : String) : Option String :=
  match pyOr env.home env.userprofile with
  | none => none
  | some h => some (ospJoin (ospJoin h ".ssh") keyname)

/-! ### Stale-key purge: `delete_old_keys` (lines 56-64) -/

/-- Whether a path matches the `glob` pattern `pre ++ "*"`: the candidate extends
`pre` and the part matched by `*` contains no `/`. -/
def globStarMatch (pre p : String) : Bool :=
  List.isPrefixOf pre.data p.data && !((p.data.drop pre.data.length).contains '/')

/-- The existing paths `glob.glob(pre ++ "_*")` returns (in filesystem
enumeration order). -/
def globPaths (fs : Fs) (pre : String) : List String :=
  (fs.map Prod.fst).filter (fun p => globStarMatch (pre ++ "_") p)

/-- Embeds `delete_old_keys` (lines 56-64): raise `ValueError` (`none`) on an empty
prefix, else `os.remove` every `glob` match; zero matches yields an empty
event list, not an error. -/
def delete_old_keys (fs : Fs) (pre : String) : Option (List Event) :=
  if pre.data = [] then none
  else some ((globPaths fs pre).map Event.purge)

/-! ### Fetch response data (lines 79-87) -/

/-- One element of the response's `value` array, with exactly the keys the
code subscripts; `none` models an absent key (subscripting raises
`KeyError`). -/
structure RawRecord where
  format : Option String
  keyAlg : Option String
  privateKey : Option String
deriving DecidableEq

/-- The dictionary `json.loads(resp.content)` yields, restricted to the keys
the code reads. -/
structure FetchBody where
  expirationTime : Option Int
  publicKey : Option String
  value : Option (List RawRecord)
deriving DecidableEq

/-- The HTTP response of the fetch `requests.post`; `body = none` models a
body on which `json.loads` raises. -/
structure FetchResp where
  status : Nat
  body : Option FetchBody
deriving DecidableEq

/-- A well-formed key record (all three keys present). -/
structure KeyRecord where
  format : String
  keyAlg : String
  privateKey : String
deriving DecidableEq

def KeyRecord.toRaw (k : KeyRecord) : RawRecord :=
  ⟨some k.format, some k.keyAlg, some k.privateKey⟩

/-- Outcome of the `ssh-add` invocation. -/
inductive AgentResult where
  | ret (code : Nat)
  | invocationError
deriving DecidableEq

/-- Result of a straight-line fragment: it either ran to completion or
raised an uncaught exception, in both cases after the recorded events. -/
inductive StepResult where
  | done (events : List Event)
  | raised (events : List Event)
deriving DecidableEq

def StepResult.events : StepResult → List Event
  | .done evs => evs
  | .raised evs => evs

def StepResult.prepend (evs : List Event) : StepResult → StepResult
  | .done evs2 => .done (evs ++ evs2)
  | .raised evs2 => .raised (evs ++ evs2)

/-- The deterministic key file name (line 85):
`filepath + "_" + format.lower() + "_" + keyAlg.lower()`. -/
def keyFilename (fp fmt alg : String) : String :=
  fp ++ "_" ++ pyLower fmt ++ "_" ++ pyLower alg

/-- The body of the per-record loop over the `value` array (lines 84-101) for one
record.  `hasExp` records whether `data` has the `expirationTime` key, read
(line 84) before anything else; then `format`/`keyAlg` (line 85), the file
write and chmod (lines 86-88), and the `ssh-add` call (lines 94-101). -/
def processRecord (agent : String → AgentResult) (fp : String) (hasExp : Bool)
    (r : RawRecord) : StepResult :=
  if hasExp then
    match r.format with
    | none => .raised []
    | some fmt =>
      match r.keyAlg with
      | none => .raised []
      | some alg =>
        let filename := keyFilename fp fmt alg
        match r.privateKey with
        | none => .raised [Event.openW filename]
        | some pk =>
          let evs := [Event.openW filename, Event.writeContent filename pk,
                      Event.chmod filename 0o600]
          match agent filename with
          | .ret c =>
            if c = 0 then
              .done (evs ++ [Event.sshAdd filename 0, Event.unlink filename])
            else
              .done (evs ++ [Event.sshAdd filename c, Event.warn filename])
          | .invocationError => .raised evs
  else .raised []

/-- The whole `for` loop: records processed in array order; an uncaught
exception stops the loop, a clean per-record failure does not. -/
def processRecords (agent : String → AgentResult) (fp : String) (hasExp : Bool) :
    List RawRecord → StepResult
  | [] => .done []
  | r :: rest =>
    match processRecord agent fp hasExp r with
    | .raised evs => .raised evs
    | .done evs => StepResult.prepend evs (processRecords agent fp hasExp rest)

/-- How `get_key` terminated. -/
inductive Outcome where
  | ok (events : List Event)
  | exited (code : Nat) (events : List Event)
  | exc (events : List Event)
deriving DecidableEq

def Outcome.events : Outcome → List Event
  | .ok evs => evs
  | .exited _ evs => evs
  | .exc evs => evs

/-- Embeds `get_key` (lines 66-101): non-200 fetch exits 1; then `json.loads`, path
resolution (exit 1 without a home), `delete_old_keys`, and the record loop. -/
def get_key (env : Env) (agent : String → AgentResult) (resp : FetchResp)
    (fs0 : Fs) : Outcome :=
  if resp.status ≠ 200 then .exited 1 []
  else
    match resp.body with
    | none => .exc []
    | some data =>
      match get_ssh_keyfile_path env "id_cyberark_session" with
      | none => .exited 1 []
      | some fp =>
        match delete_old_keys fs0 fp with
        | none => .exc []
        | some purgeEvs =>
          match data.value with
          | none => .exc purgeEvs
          | some records =>
            match processRecords agent fp data.expirationTime.isSome records with
            | .done evs => .ok (purgeEvs ++ evs)
            | .raised evs => .exc (purgeEvs ++ evs)

/-- How the process terminated. -/
inductive Termination where
  | exit (code : Nat)
  | uncaught
deriving DecidableEq

/-- One whole run: termination kind, side-effect trace, and whether the
fetch request was ever sent. -/
structure RunOutcome where
  term : Termination
  events : List Event
  fetchSent : Bool
deriving DecidableEq

/-- The core flow of `__main__` (lines 131-132): construct the fetcher
(which authenticates in `__init__` and exits 1 on failure), then `get_key`. -/
def runMain (env : Env) (agent : String → AgentResult) (aresp : AuthResp)
    (fresp : FetchResp) (fs0 : Fs) : RunOutcome :=
  match auth aresp with
  | .error _ => ⟨.exit 1, [], false⟩
  | .ok _ =>
    match get_key env agent fresp fs0 with
    | .exited c evs => ⟨.exit c, evs, true⟩
    | .ok evs => ⟨.exit 0, evs, true⟩
    | .exc evs => ⟨.uncaught, evs, true⟩

/-! ### Helper lemmas about the filesystem model -/

theorem fsGet_fsSet_self (fs : Fs) (p : String) (f : File) :
    fsGet (fsSet fs p f) p = some f := by
  induction fs with
  | nil => simp [fsSet, fsGet]
  | cons hd tl ih =>
    obtain ⟨q, g⟩ := hd
    by_cases h : q = p
    · simp [fsSet, fsGet, h]
    · simp [fsSet, fsGet, h, ih]

theorem fsGet_fsRemove_self (fs : Fs) (p : String) :
    fsGet (fsRemove fs p) p = none := by
  induction fs with
  | nil => simp [fsRemove, fsGet]
  | cons hd tl ih =>
    obtain ⟨q, g⟩ := hd
    by_cases h : q = p
    · simp [fsRemove, fsGet, h, ih]
    · simp [fsRemove, fsGet, h, ih]

theorem fsGet_applyEvent_openW (umask : Nat) (fs : Fs) (f : String) :
    ∃ m, fsGet (applyEvent umask fs (Event.openW f)) f = some ⟨m, ""⟩ := by
  rcases h : fsGet fs f with _ | g
  · exact ⟨defaultFileMode umask, by simp [applyEvent, fsOpenW, h, fsGet_fsSet_self]⟩
  · exact ⟨g.mode, by simp [applyEvent, fsOpenW, h, fsGet_fsSet_self]⟩

/-- After `open`, `write`, `chmod 0o600`, the file holds the key material
with owner-only permissions, whatever the prior state. -/
theorem fsGet_applyEvents_install (umask : Nat) (fs0 : Fs) (f pk : String) :
    fsGet (applyEvents umask fs0
      [Event.openW f, Event.writeContent f pk, Event.chmod f 0o600]) f
    = some ⟨0o600, pk⟩ := by
  obtain ⟨m, h1⟩ := fsGet_applyEvent_openW umask fs0 f
  simp only [applyEvents, List.foldl_cons, List.foldl_nil]
  set fs1 := applyEvent umask fs0 (Event.openW f) with hfs1
  have h2 : applyEvent umask fs1 (Event.writeContent f pk) = fsSet fs1 f ⟨m, pk⟩ := by
    simp [applyEvent, h1]
  have h3 : applyEvent umask (fsSet fs1 f ⟨m, pk⟩) (Event.chmod f 0o600)
      = fsSet (fsSet fs1 f ⟨m, pk⟩) f ⟨0o600, pk⟩ := by
    simp [applyEvent, fsGet_fsSet_self]
  rw [h2, h3]
  exact fsGet_fsSet_self _ _ _

/-! ### Helper lemmas about the record loop -/

theorem processRecord_no_purge (agent : String → AgentResult) (fp : String)
    (he : Bool) (r : RawRecord) :
    ∀ e ∈ (processRecord agent fp he r).events, e.isPurgeEv = false := by
  obtain ⟨f?, a?, k?⟩ := r
  cases he <;> cases f? <;> cases a? <;> cases k? <;>
    simp only [processRecord, StepResult.events] <;>
    first
    | (intro e hmem; fin_cases hmem <;> rfl)
    | (rcases hag : agent _ with c | _
       · by_cases hc : c = 0 <;>
           simp only [hag, hc, if_pos, if_neg, reduceCtorEq] <;>
           (intro e hmem; fin_cases hmem <;> rfl)
       · simp only [hag]
         intro e hmem; fin_cases hmem <;> rfl)

theorem processRecords_no_purge (agent : String → AgentResult) (fp : String)
    (he : Bool) (rs : List RawRecord) :
    ∀ e ∈ (processRecords agent fp he rs).events, e.isPurgeEv = false := by
  induction rs with
  | nil => simp [processRecords, StepResult.events]
  | cons r rest ih =>
    intro e hmem
    rcases h1 : processRecord agent fp he r with evs | evs
    · rcases h2 : processRecords agent fp he rest with evs2 | evs2 <;>
        · simp only [processRecords, h1, h2, StepResult.prepend,
            StepResult.events, List.mem_append] at hmem
          rcases hmem with hmem | hmem
          · exact processRecord_no_purge agent fp he r e (by rw [h1]; exact hmem)
          · exact ih e (by rw [h2]; exact hmem)
    · simp only [processRecords, h1, StepResult.events] at hmem
      exact processRecord_no_purge agent fp he r e (by rw [h1]; exact hmem)

/-- A well-formed record with a cleanly-returning agent completes, opening
exactly its own deterministic file. -/
theorem processRecord_clean (agent : String → AgentResult) (fp : String)
    (k : KeyRecord)
    (hagent : agent (keyFilename fp k.format k.keyAlg) ≠ AgentResult.invocationError) :
    ∃ evs, processRecord agent fp true k.toRaw = .done evs
      ∧ evs.filter Event.isOpenWEv
          = [Event.openW (keyFilename fp k.format k.keyAlg)] := by
  rcases hag : agent (keyFilename fp k.format k.keyAlg) with c | _
  · by_cases hc : c = 0
    · subst hc
      refine ⟨[Event.openW (keyFilename fp k.format k.keyAlg),
               Event.writeContent (keyFilename fp k.format k.keyAlg) k.privateKey,
               Event.chmod (keyFilename fp k.format k.keyAlg) 0o600,
               Event.sshAdd (keyFilename fp k.format k.keyAlg) 0,
               Event.unlink (keyFilename fp k.format k.keyAlg)], ?_, ?_⟩
      · simp [processRecord, KeyRecord.toRaw, hag]
      · simp [Event.isOpenWEv, List.filter]
    · refine ⟨[Event.openW (keyFilename fp k.format k.keyAlg),
               Event.writeContent (keyFilename fp k.format k.keyAlg) k.privateKey,
               Event.chmod (keyFilename fp k.format k.keyAlg) 0o600,
               Event.sshAdd (keyFilename fp k.format k.keyAlg) c,
               Event.warn (keyFilename fp k.format k.keyAlg)], ?_, ?_⟩
      · simp [processRecord, KeyRecord.toRaw, hag, hc]
      · simp [Event.isOpenWEv, List.filter]
  · exact absurd hag hagent

/-- A whole bundle of well-formed records with a cleanly-returning agent
completes, opening exactly one file per record, in array order. -/
theorem processRecords_clean (agent : String → AgentResult) (fp : String)
    (hagent : ∀ p, agent p ≠ AgentResult.invocationError) (krs : List KeyRecord) :
    ∃ evs, processRecords agent fp true (krs.map KeyRecord.toRaw) = .done evs
      ∧ evs.filter Event.isOpenWEv
          = krs.map (fun k => Event.openW (keyFilename fp k.format k.keyAlg)) := by
  induction krs with
  | nil => exact ⟨[], rfl, rfl⟩
  | cons k rest ih =>
    obtain ⟨evs1, h1, hf1⟩ := processRecord_clean agent fp k (hagent _)
    obtain ⟨evs2, h2, hf2⟩ := ih
    refine ⟨evs1 ++ evs2, ?_, ?_⟩
    · simp only [List.map_cons, processRecords, h1, h2, StepResult.prepend]
    · simp [List.filter_append, hf1, hf2]

/-! ### Helper lemmas about Python string primitives -/

theorem dropWhile_of_head_ne (c : Char) (m : List Char) (hm : m.head? ≠ some c) :
    m.dropWhile (fun a => a = c) = m := by
  cases m with
  | nil => rfl
  | cons b m' =>
    have hb : ¬ b = c := fun h => hm (by simp [List.head?, h])
    simp [List.dropWhile, hb]

/-- List form of stripping the wrapping quotes. -/
theorem stripQuotes_wrap_list (l : List Char) (hh : l.head? ≠ some '"')
    (hl : l.getLast? ≠ some '"') :
    ((('"' :: (l ++ ['"'])).dropWhile (fun a => a = '"')).reverse.dropWhile
        (fun a => a = '"')).reverse = l := by
  rw [show ('"' :: (l ++ ['"'])).dropWhile (fun a => a = '"')
      = (l ++ ['"']).dropWhile (fun a => a = '"') by simp [List.dropWhile]]
  cases l with
  | nil => simp [List.dropWhile]
  | cons a l' =>
    have ha : ((a :: l') ++ ['"']).head? ≠ some '"' := by
      simpa using hh
    rw [dropWhile_of_head_ne '"' _ ha]
    rw [show ((a :: l') ++ ['"']).reverse = '"' :: (a :: l').reverse by simp]
    rw [show ('"' :: (a :: l').reverse).dropWhile (fun a => a = '"')
        = (a :: l').reverse.dropWhile (fun a => a = '"') by simp [List.dropWhile]]
    rw [dropWhile_of_head_ne '"' _ (by rw [List.head?_reverse]; exact hl)]
    simp

/-- Stripping the wrapping quote characters recovers `t` whenever `t`
itself neither starts nor ends with a quote. -/
theorem pyStrip_wrap (t : String) (hh : t.data.head? ≠ some '"')
    (hl : t.data.getLast? ≠ some '"') :
    pyStrip '"' ("\"" ++ t ++ "\"") = t := by
  obtain ⟨l⟩ := t
  apply String.ext
  have hdata : ("\"" ++ String.mk l ++ "\"").data = '"' :: (l ++ ['"']) := by
    simp [String.data_append]
  simp only [pyStrip, hdata]
  exact stripQuotes_wrap_list l (by simpa using hh) (by simpa using hl)

/-! ### Helper lemmas about path resolution -/

theorem ospJoin_clean (a b : String) (ha : a.data ≠ [])
    (hla : a.data.getLast? ≠ some '/') (hb : b.data.head? ≠ some '/') :
    ospJoin a b = a ++ "/" ++ b := by
  unfold ospJoin
  rw [if_neg hb, if_neg]
  rintro (h | h)
  · exact ha h
  · exact hla h

/-- Evaluates the joined path of home, the ssh directory and the key name
for a clean home path. -/
theorem keyfile_path_eq (h : String) (ha : h.data ≠ [])
    (hla : h.data.getLast? ≠ some '/') :
    ospJoin (ospJoin h ".ssh") "id_cyberark_session"
      = h ++ "/.ssh/id_cyberark_session" := by
  rw [ospJoin_clean h ".ssh" ha hla (by decide)]
  have h2 : (h ++ "/" ++ ".ssh").data ≠ [] := by
    simp [String.data_append]
  have h3 : (h ++ "/" ++ ".ssh").data.getLast? = some 'h' := by
    simp only [String.data_append]
    rw [List.getLast?_append_of_ne_nil (h.data ++ "/".data) (by decide)]
    decide
  rw [ospJoin_clean _ _ h2 (by rw [h3]; decide) (by decide)]
  apply String.ext
  simp [String.data_append]

theorem applyEvents_append (umask : Nat) (fs0 : Fs) (l1 l2 : List Event) :
    applyEvents umask fs0 (l1 ++ l2)
      = applyEvents umask (applyEvents umask fs0 l1) l2 := by
  simp [applyEvents, List.foldl_append]

/-- Unfolds `get_key` on a 200 response with a parsed body and a
resolvable home: the stale purge happens, then the record loop runs. -/
theorem get_key_unfold (env : Env) (agent : String → AgentResult)
    (resp : FetchResp) (fs0 : Fs) (data : FetchBody) (fp : String)
    (h200 : resp.status = 200) (hbody : resp.body = some data)
    (hfp : get_ssh_keyfile_path env "id_cyberark_session" = some fp)
    (hne : fp.data ≠ []) :
    get_key env agent resp fs0
      = match data.value with
        | none => .exc ((globPaths fs0 fp).map Event.purge)
        | some records =>
          match processRecords agent fp data.expirationTime.isSome records with
          | .done evs => .ok ((globPaths fs0 fp).map Event.purge ++ evs)
          | .raised evs => .exc ((globPaths fs0 fp).map Event.purge ++ evs) := by
  have hdel : delete_old_keys fs0 fp = some ((globPaths fs0 fp).map Event.purge) := by
    unfold delete_old_keys
    rw [if_neg hne]
  simp only [get_key, h200, hbody, hfp, hdel, ne_eq, not_true_eq_false, if_false,
    Bool.false_eq_true]

/-- Claim C1 (evidence of the code bug): on a run with the common umask
`0o022`, the key file is observable with mode `0o644` — the other-read bit
set — while already holding the key material, because `open(_, "w")`
creates it with the default mode and the `chmod` to `0o600` only happens
after the write; the spec requires owner-only permissions from the moment
of creation. -/
theorem c1_world_readable_window :
    ∃ fs ∈ fsStates 0o022 []
        (get_key ⟨some "/h", none⟩ (fun _ => AgentResult.ret 0)
          ⟨200, some ⟨some 0, none,
            some [⟨some "RAW", some "RSA", some "SECRETKEY"⟩]⟩⟩ []).events,
      fsGet fs "/h/.ssh/id_cyberark_session_raw_rsa" = some ⟨0o644, "SECRETKEY"⟩
      ∧ Nat.land 0o644 0o004 ≠ 0 := by decide

/-- Claim C2: on every run that reaches a successful fetch (200 status,
parseable body) with a resolvable home, the event trace starts with exactly
one purge of every existing `<prefix>_*` file and contains no other purge
event afterwards — so purging happens exactly once, strictly before any
file is opened or written, also when the bundle has zero records, and zero
matches is a successful no-op. -/
theorem c2_purge_once_before_writes (env : Env) (agent : String → AgentResult)
    (resp : FetchResp) (fs0 : Fs) (data : FetchBody) (fp : String)
    (h200 : resp.status = 200) (hbody : resp.body = some data)
    (hfp : get_ssh_keyfile_path env "id_cyberark_session" = some fp)
    (hne : fp.data ≠ []) :
    ∃ tail, (get_key env agent resp fs0).events
        = (globPaths fs0 fp).map Event.purge ++ tail
      ∧ ∀ e ∈ tail, e.isPurgeEv = false := by
  rw [get_key_unfold env agent resp fs0 data fp h200 hbody hfp hne]
  rcases hval : data.value with _ | records
  · exact ⟨[], by simp [Outcome.events], by simp⟩
  · dsimp only
    rcases hpr : processRecords agent fp data.expirationTime.isSome records
        with evs | evs
    · exact ⟨evs, by simp [Outcome.events],
        fun e he => processRecords_no_purge agent fp data.expirationTime.isSome
          records e (by rw [hpr]; exact he)⟩
    · exact ⟨evs, by simp [Outcome.events],
        fun e he => processRecords_no_purge agent fp data.expirationTime.isSome
          records e (by rw [hpr]; exact he)⟩

/-- Witness for C2 at a concrete run: one stale file, empty bundle. -/
theorem c2_witness :
    ∃ tail, (get_key ⟨some "/h", none⟩ (fun _ => AgentResult.ret 0)
        ⟨200, some ⟨some 0, none, some []⟩⟩
        [("/h/.ssh/id_cyberark_session_old", ⟨0o600, "x"⟩)]).events
      = (globPaths [("/h/.ssh/id_cyberark_session_old", ⟨0o600, "x"⟩)]
          "/h/.ssh/id_cyberark_session").map Event.purge ++ tail
      ∧ ∀ e ∈ tail, e.isPurgeEv = false :=
  c2_purge_once_before_writes ⟨some "/h", none⟩ (fun _ => AgentResult.ret 0)
    ⟨200, some ⟨some 0, none, some []⟩⟩
    [("/h/.ssh/id_cyberark_session_old", ⟨0o600, "x"⟩)]
    ⟨some 0, none, some []⟩ "/h/.ssh/id_cyberark_session"
    rfl rfl (by decide) (by decide)

/-- Claim C3: for every well-formed record whose agent invocation returns
cleanly with exit code `c`, exactly one of two outcomes holds afterwards:
`c = 0` — registration succeeded, the file is gone from disk, the key was
handed to the agent, and no warning was emitted; or `c ≠ 0` — registration
reported failure, the file remains at its deterministic path with mode
`0o600` holding the key material, and the left-on-disk warning was
emitted. -/
theorem c3_install_dichotomy (agent : String → AgentResult)
    (fp fmt alg pk : String) (fs0 : Fs) (umask c : Nat)
    (hagent : agent (keyFilename fp fmt alg) = AgentResult.ret c) :
    ∃ evs, processRecord agent fp true ⟨some fmt, some alg, some pk⟩ = .done evs
      ∧ ((c = 0
          ∧ fsGet (applyEvents umask fs0 evs) (keyFilename fp fmt alg) = none
          ∧ Event.sshAdd (keyFilename fp fmt alg) 0 ∈ evs
          ∧ Event.warn (keyFilename fp fmt alg) ∉ evs)
        ∨ (c ≠ 0
          ∧ fsGet (applyEvents umask fs0 evs) (keyFilename fp fmt alg)
              = some ⟨0o600, pk⟩
          ∧ Event.warn (keyFilename fp fmt alg) ∈ evs)) := by
  by_cases hc : c = 0
  · subst hc
    refine ⟨[Event.openW (keyFilename fp fmt alg),
             Event.writeContent (keyFilename fp fmt alg) pk,
             Event.chmod (keyFilename fp fmt alg) 0o600,
             Event.sshAdd (keyFilename fp fmt alg) 0,
             Event.unlink (keyFilename fp fmt alg)],
      by simp [processRecord, hagent], Or.inl ⟨rfl, ?_, by simp, by simp⟩⟩
    rw [show [Event.openW (keyFilename fp fmt alg),
             Event.writeContent (keyFilename fp fmt alg) pk,
             Event.chmod (keyFilename fp fmt alg) 0o600,
             Event.sshAdd (keyFilename fp fmt alg) 0,
             Event.unlink (keyFilename fp fmt alg)]
        = [Event.openW (keyFilename fp fmt alg),
           Event.writeContent (keyFilename fp fmt alg) pk,
           Event.chmod (keyFilename fp fmt alg) 0o600]
          ++ [Event.sshAdd (keyFilename fp fmt alg) 0,
              Event.unlink (keyFilename fp fmt alg)] from rfl]
    rw [applyEvents_append]
    show fsGet (fsRemove _ (keyFilename fp fmt alg)) (keyFilename fp fmt alg) = none
    exact fsGet_fsRemove_self _ _
  · refine ⟨[Event.openW (keyFilename fp fmt alg),
             Event.writeContent (keyFilename fp fmt alg) pk,
             Event.chmod (keyFilename fp fmt alg) 0o600,
             Event.sshAdd (keyFilename fp fmt alg) c,
             Event.warn (keyFilename fp fmt alg)],
      by simp [processRecord, hagent, hc], Or.inr ⟨hc, ?_, by simp⟩⟩
    rw [show [Event.openW (keyFilename fp fmt alg),
             Event.writeContent (keyFilename fp fmt alg) pk,
             Event.chmod (keyFilename fp fmt alg) 0o600,
             Event.sshAdd (keyFilename fp fmt alg) c,
             Event.warn (keyFilename fp fmt alg)]
        = [Event.openW (keyFilename fp fmt alg),
           Event.writeContent (keyFilename fp fmt alg) pk,
           Event.chmod (keyFilename fp fmt alg) 0o600]
          ++ [Event.sshAdd (keyFilename fp fmt alg) c,
              Event.warn (keyFilename fp fmt alg)] from rfl]
    rw [applyEvents_append]
    exact fsGet_applyEvents_install umask fs0 _ pk

/-- Witness for C3 at a concrete record with a succeeding agent. -/
theorem c3_witness :
    ∃ evs, processRecord (fun _ => AgentResult.ret 0)
        "/h/.ssh/id_cyberark_session" true ⟨some "RAW", some "RSA", some "PK"⟩
        = .done evs
      ∧ ((0 = 0
          ∧ fsGet (applyEvents 0o022 [] evs)
              (keyFilename "/h/.ssh/id_cyberark_session" "RAW" "RSA") = none
          ∧ Event.sshAdd (keyFilename "/h/.ssh/id_cyberark_session" "RAW" "RSA") 0 ∈ evs
          ∧ Event.warn (keyFilename "/h/.ssh/id_cyberark_session" "RAW" "RSA") ∉ evs)
        ∨ (0 ≠ 0
          ∧ fsGet (applyEvents 0o022 [] evs)
              (keyFilename "/h/.ssh/id_cyberark_session" "RAW" "RSA")
              = some ⟨0o600, "PK"⟩
          ∧ Event.warn (keyFilename "/h/.ssh/id_cyberark_session" "RAW" "RSA") ∈ evs)) :=
  c3_install_dichotomy (fun _ => AgentResult.ret 0) "/h/.ssh/id_cyberark_session"
    "RAW" "RSA" "PK" [] 0o022 0 rfl

/-- Claim C4: on HTTP 200 `auth` stores exactly the response body with its
surrounding quotes stripped as the session token; on any non-200 response
it fails carrying the original status code and raw body, and the flow never
sends the fetch request (and exits with status 1). -/
theorem c4_auth_token (resp : AuthResp) (t : String) :
    (resp.status = 200 → resp.body = "\"" ++ t ++ "\"" →
      t.data.head? ≠ some '"' → t.data.getLast? ≠ some '"' →
      auth resp = .ok t)
    ∧ (resp.status ≠ 200 →
      auth resp = .error (resp.status, resp.body)
      ∧ ∀ (env : Env) (agent : String → AgentResult) (fresp : FetchResp) (fs0 : Fs),
          runMain env agent resp fresp fs0 = ⟨Termination.exit 1, [], false⟩) := by
  constructor
  · intro h200 hbody hh hl
    unfold auth
    rw [if_pos h200, hbody, pyStrip_wrap t hh hl]
  · intro hne
    have herr : auth resp = .error (resp.status, resp.body) := by
      unfold auth
      rw [if_neg hne]
    exact ⟨herr, fun env agent fresp fs0 => by simp [runMain, herr]⟩

/-- Witness for C4: a 200 response yields the unquoted token; a 401 fails
with status and body preserved. -/
theorem c4_witness :
    auth ⟨200, "\"sessiontoken\""⟩ = .ok "sessiontoken"
    ∧ auth ⟨401, "denied"⟩ = .error (401, "denied") :=
  ⟨(c4_auth_token ⟨200, "\"sessiontoken\""⟩ "sessiontoken").1 rfl rfl
      (by decide) (by decide),
   ((c4_auth_token ⟨401, "denied"⟩ "").2 (by decide)).1⟩

/-- Claim C5: a 200 fetch response whose `value` array holds `N ≥ 0`
well-formed records (and whose agent invocations return cleanly) completes
without error, opening exactly one key file per record, in the array's
original order; `N = 0` installs nothing and raises nothing. -/
theorem c5_bundle_order (env : Env) (agent : String → AgentResult) (fs0 : Fs)
    (krs : List KeyRecord) (expT : Int) (pub : Option String) (fp : String)
    (hfp : get_ssh_keyfile_path env "id_cyberark_session" = some fp)
    (hne : fp.data ≠ [])
    (hagent : ∀ p, agent p ≠ AgentResult.invocationError) :
    ∃ evs,
      get_key env agent ⟨200, some ⟨some expT, pub, some (krs.map KeyRecord.toRaw)⟩⟩ fs0
        = .ok ((globPaths fs0 fp).map Event.purge ++ evs)
      ∧ evs.filter Event.isOpenWEv
          = krs.map (fun k => Event.openW (keyFilename fp k.format k.keyAlg)) := by
  obtain ⟨evs, h1, h2⟩ := processRecords_clean agent fp hagent krs
  refine ⟨evs, ?_, h2⟩
  rw [get_key_unfold env agent _ fs0 ⟨some expT, pub, some (krs.map KeyRecord.toRaw)⟩
    fp rfl rfl hfp hne]
  dsimp only [Option.isSome]
  rw [h1]

/-- Witness for C5: two records, agent cleanly rejecting. -/
theorem c5_witness :
    ∃ evs,
      get_key ⟨some "/h", none⟩ (fun _ => AgentResult.ret 1)
        ⟨200, some ⟨some 7, none,
          some ([(⟨"RAW", "RSA", "K1"⟩ : KeyRecord),
                 ⟨"RAW", "ED25519", "K2"⟩].map KeyRecord.toRaw)⟩⟩ []
        = .ok ((globPaths [] "/h/.ssh/id_cyberark_session").map Event.purge ++ evs)
      ∧ evs.filter Event.isOpenWEv
          = [(⟨"RAW", "RSA", "K1"⟩ : KeyRecord), ⟨"RAW", "ED25519", "K2"⟩].map
              (fun k => Event.openW
                (keyFilename "/h/.ssh/id_cyberark_session" k.format k.keyAlg)) :=
  c5_bundle_order ⟨some "/h", none⟩ (fun _ => AgentResult.ret 1) []
    [⟨"RAW", "RSA", "K1"⟩, ⟨"RAW", "ED25519", "K2"⟩] 7 none
    "/h/.ssh/id_cyberark_session" (by decide) (by decide)
    (fun p => by simp only []; decide)

/-- Counterexample to claim C6: with two records and an agent whose
invocation itself errors on the first record's file, the run ends in an
uncaught exception and the second record is never processed (its file is
never even opened) — the flow does NOT continue to the next record, though
the first record's file is indeed retained. -/
theorem c6_counterexample :
    get_key ⟨some "/h", none⟩
        (fun p => if p = "/h/.ssh/id_cyberark_session_raw_rsa"
          then AgentResult.invocationError else AgentResult.ret 0)
        ⟨200, some ⟨some 0, none,
          some [⟨some "RAW", some "RSA", some "PK1"⟩,
                ⟨some "RAW", some "ED25519", some "PK2"⟩]⟩⟩ []
      = .exc [Event.openW "/h/.ssh/id_cyberark_session_raw_rsa",
              Event.writeContent "/h/.ssh/id_cyberark_session_raw_rsa" "PK1",
              Event.chmod "/h/.ssh/id_cyberark_session_raw_rsa" 0o600]
    ∧ Event.openW "/h/.ssh/id_cyberark_session_raw_ed25519"
        ∉ (get_key ⟨some "/h", none⟩
            (fun p => if p = "/h/.ssh/id_cyberark_session_raw_rsa"
              then AgentResult.invocationError else AgentResult.ret 0)
            ⟨200, some ⟨some 0, none,
              some [⟨some "RAW", some "RSA", some "PK1"⟩,
                    ⟨some "RAW", some "ED25519", some "PK2"⟩]⟩⟩ []).events
    ∧ fsGet (applyEvents 0o022 []
          (get_key ⟨some "/h", none⟩
            (fun p => if p = "/h/.ssh/id_cyberark_session_raw_rsa"
              then AgentResult.invocationError else AgentResult.ret 0)
            ⟨200, some ⟨some 0, none,
              some [⟨some "RAW", some "RSA", some "PK1"⟩,
                    ⟨some "RAW", some "ED25519", some "PK2"⟩]⟩⟩ []).events)
        "/h/.ssh/id_cyberark_session_raw_rsa"
      = some ⟨0o600, "PK1"⟩ := by decide

/-- Claim C6 as amended: the loop continues past a record whenever its
`ssh-add` invocation returns cleanly (success or failure); when the
invocation itself errors, the already-written file is retained on disk with
owner-only permissions and its key material intact, but the exception
aborts the loop, so the remaining records are not processed. -/
theorem c6_amended_per_record (agent : String → AgentResult)
    (fp fmt alg pk : String) (rest : List RawRecord) (fs0 : Fs) (umask c : Nat) :
    (agent (keyFilename fp fmt alg) = AgentResult.ret c →
      ∃ evs1, processRecords agent fp true (⟨some fmt, some alg, some pk⟩ :: rest)
        = StepResult.prepend evs1 (processRecords agent fp true rest))
    ∧ (agent (keyFilename fp fmt alg) = AgentResult.invocationError →
      processRecords agent fp true (⟨some fmt, some alg, some pk⟩ :: rest)
        = .raised [Event.openW (keyFilename fp fmt alg),
                   Event.writeContent (keyFilename fp fmt alg) pk,
                   Event.chmod (keyFilename fp fmt alg) 0o600]
      ∧ fsGet (applyEvents umask fs0
            [Event.openW (keyFilename fp fmt alg),
             Event.writeContent (keyFilename fp fmt alg) pk,
             Event.chmod (keyFilename fp fmt alg) 0o600]) (keyFilename fp fmt alg)
          = some ⟨0o600, pk⟩) := by
  constructor
  · intro hag
    by_cases hc : c = 0
    · subst hc
      refine ⟨[Event.openW (keyFilename fp fmt alg),
               Event.writeContent (keyFilename fp fmt alg) pk,
               Event.chmod (keyFilename fp fmt alg) 0o600,
               Event.sshAdd (keyFilename fp fmt alg) 0,
               Event.unlink (keyFilename fp fmt alg)], ?_⟩
      simp [processRecords, processRecord, hag]
    · refine ⟨[Event.openW (keyFilename fp fmt alg),
               Event.writeContent (keyFilename fp fmt alg) pk,
               Event.chmod (keyFilename fp fmt alg) 0o600,
               Event.sshAdd (keyFilename fp fmt alg) c,
               Event.warn (keyFilename fp fmt alg)], ?_⟩
      simp [processRecords, processRecord, hag, hc]
  · intro hag
    exact ⟨by simp [processRecords, processRecord, hag],
      fsGet_applyEvents_install umask fs0 _ pk⟩

/-- Witness for C6 (amended): first conjunct at an agent that cleanly
rejects, second at one whose invocation errors. -/
theorem c6_amended_witness :
    (∃ evs1, processRecords (fun _ => AgentResult.ret 1)
        "/h/.ssh/id_cyberark_session" true
        (⟨some "RAW", some "RSA", some "PK"⟩ :: [⟨some "RAW", some "ED25519", some "Q"⟩])
      = StepResult.prepend evs1
          (processRecords (fun _ => AgentResult.ret 1)
            "/h/.ssh/id_cyberark_session" true [⟨some "RAW", some "ED25519", some "Q"⟩]))
    ∧ (processRecords (fun _ => AgentResult.invocationError)
          "/h/.ssh/id_cyberark_session" true
          (⟨some "RAW", some "RSA", some "PK"⟩ :: [])
        = .raised [Event.openW (keyFilename "/h/.ssh/id_cyberark_session" "RAW" "RSA"),
                   Event.writeContent
                     (keyFilename "/h/.ssh/id_cyberark_session" "RAW" "RSA") "PK",
                   Event.chmod
                     (keyFilename "/h/.ssh/id_cyberark_session" "RAW" "RSA") 0o600]
      ∧ fsGet (applyEvents 0o022 []
            [Event.openW (keyFilename "/h/.ssh/id_cyberark_session" "RAW" "RSA"),
             Event.writeContent
               (keyFilename "/h/.ssh/id_cyberark_session" "RAW" "RSA") "PK",
             Event.chmod (keyFilename "/h/.ssh/id_cyberark_session" "RAW" "RSA") 0o600])
          (keyFilename "/h/.ssh/id_cyberark_session" "RAW" "RSA")
          = some ⟨0o600, "PK"⟩) :=
  ⟨(c6_amended_per_record (fun _ => AgentResult.ret 1) "/h/.ssh/id_cyberark_session"
      "RAW" "RSA" "PK" [⟨some "RAW", some "ED25519", some "Q"⟩] [] 0o022 1).1 rfl,
   (c6_amended_per_record (fun _ => AgentResult.invocationError)
      "/h/.ssh/id_cyberark_session" "RAW" "RSA" "PK" [] [] 0o022 0).2 rfl⟩

/-- Claim C7: when authentication gets any non-200 response, the process
exits with status 1, sends no fetch request, performs no filesystem event
(no purge, no write), and leaves the filesystem exactly as it was. -/
theorem c7_auth_failure_frame (env : Env) (agent : String → AgentResult)
    (aresp : AuthResp) (fresp : FetchResp) (fs0 : Fs) (umask : Nat)
    (h : aresp.status ≠ 200) :
    runMain env agent aresp fresp fs0 = ⟨Termination.exit 1, [], false⟩
    ∧ applyEvents umask fs0 (runMain env agent aresp fresp fs0).events = fs0 := by
  have herr : auth aresp = .error (aresp.status, aresp.body) := by
    unfold auth
    rw [if_neg h]
  have hr : runMain env agent aresp fresp fs0 = ⟨Termination.exit 1, [], false⟩ := by
    simp [runMain, herr]
  exact ⟨hr, by rw [hr]; rfl⟩

/-- Witness for C7 at a concrete 401 with a non-trivial filesystem. -/
theorem c7_witness :
    runMain ⟨some "/h", none⟩ (fun _ => AgentResult.ret 0) ⟨401, "denied"⟩
        ⟨200, some ⟨some 0, none, some []⟩⟩
        [("/h/.ssh/id_cyberark_session_old", ⟨0o600, "x"⟩)]
      = ⟨Termination.exit 1, [], false⟩
    ∧ applyEvents 0o022 [("/h/.ssh/id_cyberark_session_old", ⟨0o600, "x"⟩)]
        (runMain ⟨some "/h", none⟩ (fun _ => AgentResult.ret 0) ⟨401, "denied"⟩
          ⟨200, some ⟨some 0, none, some []⟩⟩
          [("/h/.ssh/id_cyberark_session_old", ⟨0o600, "x"⟩)]).events
      = [("/h/.ssh/id_cyberark_session_old", ⟨0o600, "x"⟩)] :=
  c7_auth_failure_frame ⟨some "/h", none⟩ (fun _ => AgentResult.ret 0)
    ⟨401, "denied"⟩ ⟨200, some ⟨some 0, none, some []⟩⟩
    [("/h/.ssh/id_cyberark_session_old", ⟨0o600, "x"⟩)] 0o022 (by decide)

/-- Claim C8: the installed file path is computed deterministically as
`<home>/.ssh/id_cyberark_session` + `_` + lower-cased format + `_` +
lower-cased algorithm, where home is `HOME`, falling back to `USERPROFILE`;
if neither is set, path resolution fails and a run that gets there exits
with status 1 having touched nothing. -/
theorem c8_deterministic_path (env : Env) (h u fmt alg : String) :
    (env.home = some h → h.data ≠ [] → h.data.getLast? ≠ some '/' →
      get_ssh_keyfile_path env "id_cyberark_session"
          = some (h ++ "/.ssh/id_cyberark_session")
      ∧ keyFilename (h ++ "/.ssh/id_cyberark_session") fmt alg
          = h ++ "/.ssh/id_cyberark_session" ++ "_" ++ pyLower fmt ++ "_"
            ++ pyLower alg)
    ∧ (env.home = none → env.userprofile = some u → u.data ≠ [] →
        u.data.getLast? ≠ some '/' →
      get_ssh_keyfile_path env "id_cyberark_session"
          = some (u ++ "/.ssh/id_cyberark_session"))
    ∧ (env.home = none → env.userprofile = none →
      get_ssh_keyfile_path env "id_cyberark_session" = none
      ∧ ∀ (agent : String → AgentResult) (d : FetchBody) (fs0 : Fs),
          get_key env agent ⟨200, some d⟩ fs0 = .exited 1 []) := by
  refine ⟨?_, ?_, ?_⟩
  · intro hh hne hl
    constructor
    · unfold get_ssh_keyfile_path
      rw [hh]
      simp only [pyOr]
      rw [if_neg hne]
      dsimp only
      rw [keyfile_path_eq h hne hl]
    · simp [keyFilename, String.append_assoc]
  · intro hh hu hne hl
    unfold get_ssh_keyfile_path
    rw [hh, hu]
    simp only [pyOr]
    rw [keyfile_path_eq u hne hl]
  · intro hh hu
    have hp : get_ssh_keyfile_path env "id_cyberark_session" = none := by
      unfold get_ssh_keyfile_path
      rw [hh, hu]
      rfl
    exact ⟨hp, fun agent d fs0 => by simp [get_key, hp]⟩

/-- Witness for C8: a concrete home, a `USERPROFILE` fallback, and the
abort when neither variable is set. -/
theorem c8_witness :
    get_ssh_keyfile_path ⟨some "/home/alice", none⟩ "id_cyberark_session"
        = some ("/home/alice" ++ "/.ssh/id_cyberark_session")
    ∧ get_ssh_keyfile_path ⟨none, some "/users/bob"⟩ "id_cyberark_session"
        = some ("/users/bob" ++ "/.ssh/id_cyberark_session")
    ∧ get_ssh_keyfile_path ⟨none, none⟩ "id_cyberark_session" = none :=
  ⟨((c8_deterministic_path ⟨some "/home/alice", none⟩ "/home/alice" "" "RAW" "RSA").1
      rfl (by decide) (by decide)).1,
   (c8_deterministic_path ⟨none, some "/users/bob"⟩ "" "/users/bob" "RAW" "RSA").2.1
      rfl rfl (by decide) (by decide),
   ((c8_deterministic_path ⟨none, none⟩ "" "" "RAW" "RSA").2.2 rfl rfl).1⟩

/-- Claim C9: concrete 200 fetch responses on which `get_key` ends in an
uncaught exception: unparseable body, missing `value`, missing
`expirationTime` with one record present, and a record missing `format`,
`keyAlg`, or `privateKey` (in the last case the file has already been
created when the exception fires). -/
theorem c9_malformed_200_raises :
    get_key ⟨some "/h", none⟩ (fun _ => AgentResult.ret 0) ⟨200, none⟩ [] = .exc []
    ∧ get_key ⟨some "/h", none⟩ (fun _ => AgentResult.ret 0)
        ⟨200, some ⟨some 0, none, none⟩⟩ [] = .exc []
    ∧ get_key ⟨some "/h", none⟩ (fun _ => AgentResult.ret 0)
        ⟨200, some ⟨none, none, some [⟨some "RAW", some "RSA", some "K"⟩]⟩⟩ []
        = .exc []
    ∧ get_key ⟨some "/h", none⟩ (fun _ => AgentResult.ret 0)
        ⟨200, some ⟨some 0, none, some [⟨none, some "RSA", some "K"⟩]⟩⟩ []
        = .exc []
    ∧ get_key ⟨some "/h", none⟩ (fun _ => AgentResult.ret 0)
        ⟨200, some ⟨some 0, none, some [⟨some "RAW", none, some "K"⟩]⟩⟩ []
        = .exc []
    ∧ get_key ⟨some "/h", none⟩ (fun _ => AgentResult.ret 0)
        ⟨200, some ⟨some 0, none, some [⟨some "RAW", some "RSA", none⟩]⟩⟩ []
        = .exc [Event.openW "/h/.ssh/id_cyberark_session_raw_rsa"] := by
  decide

/-- Claim C10: two records whose format and algorithm agree up to letter
case map to the same deterministic path, so with a cleanly-failing agent
the second write overwrites the first and the run ends with the second
record's key material at that single path. -/
theorem c10_case_insensitive_collision (agent : String → AgentResult)
    (fp fmt1 alg1 pk1 fmt2 alg2 pk2 : String) (fs0 : Fs) (umask : Nat)
    (hf : pyLower fmt1 = pyLower fmt2) (ha : pyLower alg1 = pyLower alg2)
    (hagent : agent (keyFilename fp fmt2 alg2) = AgentResult.ret 1) :
    keyFilename fp fmt1 alg1 = keyFilename fp fmt2 alg2
    ∧ ∃ evs,
        processRecords agent fp true
          [⟨some fmt1, some alg1, some pk1⟩, ⟨some fmt2, some alg2, some pk2⟩]
          = .done evs
        ∧ fsGet (applyEvents umask fs0 evs) (keyFilename fp fmt2 alg2)
            = some ⟨0o600, pk2⟩ := by
  have hkey : keyFilename fp fmt1 alg1 = keyFilename fp fmt2 alg2 := by
    unfold keyFilename
    rw [hf, ha]
  refine ⟨hkey, ⟨[Event.openW (keyFilename fp fmt2 alg2),
      Event.writeContent (keyFilename fp fmt2 alg2) pk1,
      Event.chmod (keyFilename fp fmt2 alg2) 0o600,
      Event.sshAdd (keyFilename fp fmt2 alg2) 1,
      Event.warn (keyFilename fp fmt2 alg2),
      Event.openW (keyFilename fp fmt2 alg2),
      Event.writeContent (keyFilename fp fmt2 alg2) pk2,
      Event.chmod (keyFilename fp fmt2 alg2) 0o600,
      Event.sshAdd (keyFilename fp fmt2 alg2) 1,
      Event.warn (keyFilename fp fmt2 alg2)], ?_, ?_⟩⟩
  · simp [processRecords, processRecord, hkey, hagent, StepResult.prepend]
  · rw [show [Event.openW (keyFilename fp fmt2 alg2),
        Event.writeContent (keyFilename fp fmt2 alg2) pk1,
        Event.chmod (keyFilename fp fmt2 alg2) 0o600,
        Event.sshAdd (keyFilename fp fmt2 alg2) 1,
        Event.warn (keyFilename fp fmt2 alg2),
        Event.openW (keyFilename fp fmt2 alg2),
        Event.writeContent (keyFilename fp fmt2 alg2) pk2,
        Event.chmod (keyFilename fp fmt2 alg2) 0o600,
        Event.sshAdd (keyFilename fp fmt2 alg2) 1,
        Event.warn (keyFilename fp fmt2 alg2)]
      = [Event.openW (keyFilename fp fmt2 alg2),
         Event.writeContent (keyFilename fp fmt2 alg2) pk1,
         Event.chmod (keyFilename fp fmt2 alg2) 0o600,
         Event.sshAdd (keyFilename fp fmt2 alg2) 1,
         Event.warn (keyFilename fp fmt2 alg2)]
        ++ ([Event.openW (keyFilename fp fmt2 alg2),
             Event.writeContent (keyFilename fp fmt2 alg2) pk2,
             Event.chmod (keyFilename fp fmt2 alg2) 0o600]
            ++ [Event.sshAdd (keyFilename fp fmt2 alg2) 1,
                Event.warn (keyFilename fp fmt2 alg2)]) from rfl]
    rw [applyEvents_append, applyEvents_append]
    exact fsGet_applyEvents_install umask _ _ pk2

/-- Witness for C10: `RAW`/`raw` and `RSA`/`rsa` collide on one path. -/
theorem c10_witness :
    keyFilename "/h/.ssh/id_cyberark_session" "RAW" "RSA"
      = keyFilename "/h/.ssh/id_cyberark_session" "raw" "rsa"
    ∧ ∃ evs,
        processRecords (fun _ => AgentResult.ret 1) "/h/.ssh/id_cyberark_session" true
          [⟨some "RAW", some "RSA", some "A"⟩, ⟨some "raw", some "rsa", some "B"⟩]
          = .done evs
        ∧ fsGet (applyEvents 0o022 [] evs)
            (keyFilename "/h/.ssh/id_cyberark_session" "raw" "rsa")
            = some ⟨0o600, "B"⟩ :=
  c10_case_insensitive_collision (fun _ => AgentResult.ret 1)
    "/h/.ssh/id_cyberark_session" "RAW" "RSA" "A" "raw" "rsa" "B" [] 0o022
    (by decide) (by decide) rfl

end Cyberark
